import Mathlib

/-!
Shallow embedding of the resume extraction engine of this repository
(`resume_parser.py`), together with theorems settling the behavioural
claims about it.

Strings are modelled as Lean `String` / `List Char`; the Python string
methods used by the code (`strip`, `split`, `isupper`, `isdigit`) are
modelled for the ASCII range.  The two regex-based extractors are
translated pattern-by-pattern into deterministic matchers that follow
the leftmost / greedy-with-backtracking semantics of Python `re`.
External collaborators (PyPDF2 text extraction, the spaCy NER model)
are parameters of the embedding: text extraction becomes an
`Option String` input, the NER model an oracle function.
-/

namespace ResumeSpec

/-! ## Python string and character primitives (ASCII model) -/

/-- Python whitespace characters (`str.strip`, `str.split`, regex `\s`). -/
def pyWhitespace (c : Char) : Bool :=
  c = ' ' || c = '\t' || c = '\n' || c = '\r' || c = '\x0b' || c = '\x0c'

/-- Python `str.isdigit` for one ASCII character. -/
def pyDigit (c : Char) : Bool := '0' ≤ c && c ≤ '9'

/-- ASCII upper-case letter (regex class `[A-Z]`, `char.isupper()`). -/
def asciiUpper (c : Char) : Bool := 'A' ≤ c && c ≤ 'Z'

/-- ASCII lower-case letter (regex class `[a-z]`). -/
def asciiLower (c : Char) : Bool := 'a' ≤ c && c ≤ 'z'

/-- ASCII letter. -/
def asciiLetter (c : Char) : Bool := asciiUpper c || asciiLower c

/-- Lower-case an ASCII character (for case-insensitive matching). -/
def lowerAscii (c : Char) : Char :=
  if asciiUpper c then Char.ofNat (c.toNat + 32) else c

/-- Regex word character `\w` (ASCII model), used by `\b`. -/
def isWordChar (c : Char) : Bool := asciiLetter c || pyDigit c || c = '_'

/-- Wordness of an optional character; out-of-string counts as non-word. -/
def wordOpt : Option Char → Bool
  | some c => isWordChar c
  | none => false

/-- Split a character list at every character satisfying `p`, keeping
empty pieces; models Python `str.split(sep)` for one-char separators. -/
def splitOnPred (p : Char → Bool) (l : List Char) : List (List Char) :=
  l.foldr
    (fun c acc =>
      if p c then [] :: acc
      else
        match acc with
        | a :: as => (c :: a) :: as
        | [] => [[c]])
    [[]]

/-- Python `text.split('\n')`. -/
def pyLines (l : List Char) : List (List Char) := splitOnPred (fun c => c = '\n') l

/-- Python `str.split()` with no argument: split on whitespace runs,
dropping empty pieces. -/
def pyWords (l : List Char) : List (List Char) :=
  (splitOnPred pyWhitespace l).filter (fun w => !w.isEmpty)

/-- Python `str.strip()`. -/
def pyStrip (l : List Char) : List Char :=
  ((l.dropWhile pyWhitespace).reverse.dropWhile pyWhitespace).reverse

/-- Python `str.isupper()` (ASCII model): at least one cased character
and no lower-case cased character. -/
def pyIsUpper (l : List Char) : Bool :=
  l.any asciiLetter && l.all (fun c => !asciiLower c)

/-! ## Data model: the ResumeRecord produced by `ResumeParser.parse` -/

/-- The `personal_info` sub-dictionary of the parsed record. -/
structure PersonalInfo where
  name : String
  email : String
  phone : String
  address : String
deriving DecidableEq

/-- One education entry; `gpa` and `details` keys may be absent. -/
structure EducationEntry where
  degree : String
  institution : String
  year : String
  gpa : Option String
  details : Option (List String)
deriving DecidableEq

/-- One work-experience entry. -/
structure ExperienceEntry where
  title : String
  company : String
  duration : String
  responsibilities : List String
deriving DecidableEq

/-- The `skills` dictionary: category name to list of skills, in
insertion order (Python dicts preserve insertion order). -/
abbrev Skills := List (String × List String)

/-- The structured record returned by `ResumeParser.parse`. -/
structure ResumeRecord where
  personal_info : PersonalInfo
  education : List EducationEntry
  skills : Skills
  work_experience : List ExperienceEntry
deriving DecidableEq

/-! ## Name extractor (`ResumeParser.extract_name`)

Heuristic 1: all-caps line among the first 5 lines. -/

/-- First line (already limited to 5 by the caller) whose stripped form
is all upper-case, has 2-3 whitespace tokens and no digit; returns the
stripped line.  Mirrors the first `for` loop of `extract_name`. -/
def findUpperLine : List (List Char) → Option (List Char)
  | [] => none
  | l :: ls =>
    let t := pyStrip l
    if pyIsUpper t && decide (2 ≤ (pyWords t).length) &&
        decide ((pyWords t).length ≤ 3) && !(t.any pyDigit) then some t
    else findUpperLine ls

/-- Heuristic 1 of `extract_name`: scan the first 5 lines for an
all-caps 2-3 token line without digits. -/
def extractNameH1 (text : List Char) : Option (List Char) :=
  findUpperLine ((pyLines text).take 5)

/-! Heuristic 2: the labeled-name regex
`(?i)name\s*[\:|\-]?\s*([A-Z][a-z]+(?:\s+[A-Z][a-z]+){1,2})`
searched over `text[:1000]`.  Note that the inline `(?i)` flag applies
to the whole pattern, so `[A-Z]` and `[a-z]` match letters of either
case. -/

/-- Match a literal pattern case-insensitively at the head of `s`,
returning the remainder. -/
def matchCI : List Char → List Char → Option (List Char)
  | [], s => some s
  | _ :: _, [] => none
  | p :: ps, c :: cs => if lowerAscii c = lowerAscii p then matchCI ps cs else none

/-- Match `[A-Z][a-z]+` under `(?i)`: a maximal run of at least two
ASCII letters (any case).  The run is forced maximal because whatever
follows a token in the pattern cannot start with a letter. -/
def matchToken (s : List Char) : Option (List Char × List Char) :=
  if 2 ≤ (s.takeWhile asciiLetter).length then
    some (s.takeWhile asciiLetter, s.drop (s.takeWhile asciiLetter).length)
  else none

/-- Match `\s+`: a maximal nonempty run of whitespace.  Forced maximal
because what follows in the pattern cannot start with whitespace. -/
def matchSep (s : List Char) : Option (List Char × List Char) :=
  if 1 ≤ (s.takeWhile pyWhitespace).length then
    some (s.takeWhile pyWhitespace, s.drop (s.takeWhile pyWhitespace).length)
  else none

/-- Match the capture group `([A-Z][a-z]+(?:\s+[A-Z][a-z]+){1,2})`
under `(?i)` at the head of `s`: 2-3 letter tokens separated by
whitespace, greedy in the repetition count.  Returns the captured
substring (tokens together with the separators as they occur). -/
def matchNameGroup (s : List Char) : Option (List Char) :=
  match matchToken s with
  | none => none
  | some (t1, r1) =>
    match matchSep r1 with
    | none => none
    | some (w1, r2) =>
      match matchToken r2 with
      | none => none
      | some (t2, r3) =>
        match matchSep r3 with
        | none => some (t1 ++ (w1 ++ t2))
        | some (w2, r4) =>
          match matchToken r4 with
          | none => some (t1 ++ (w1 ++ t2))
          | some (t3, _) => some (t1 ++ (w1 ++ (t2 ++ (w2 ++ t3))))

/-- The optional `[\:|\-]?` after the label: consume one of `:`, `|`,
`-` when present.  Greedy consumption is forced: the group cannot start
with one of these characters. -/
def dropLabelColon (s2 : List Char) : List Char :=
  match s2 with
  | [] => []
  | c :: r => if c = ':' || c = '|' || c = '-' then r else c :: r

/-- Attempt the whole labeled-name pattern at the head of `s`:
case-insensitive literal `name`, `\s*`, optional `[:|-]`, `\s*`, then
the capture group.  Returns the captured group. -/
def matchNameLabelAt (s : List Char) : Option (List Char) :=
  match matchCI ['n', 'a', 'm', 'e'] s with
  | none => none
  | some s1 =>
    matchNameGroup ((dropLabelColon (s1.dropWhile pyWhitespace)).dropWhile pyWhitespace)

/-- `re.search` for the labeled-name pattern: leftmost position at
which the pattern matches. -/
def searchNameLabel : List Char → Option (List Char)
  | [] => none
  | c :: rest =>
    match matchNameLabelAt (c :: rest) with
    | some g => some g
    | none => searchNameLabel rest

/-- Heuristic 2 of `extract_name`: the labeled-name regex searched over
the first 1000 characters. -/
def extractNameH2 (text : List Char) : Option (List Char) :=
  searchNameLabel (text.take 1000)

/-- Heuristic 3 of `extract_name`: spaCy NER over `text[:2000]`.  The
NER model is an external collaborator, passed as the oracle `ner`
returning the texts of the entities labelled PERSON; the code keeps
candidates with at least 2 whitespace tokens and returns the first. -/
def extractNameH3 (ner : String → List String) (text : String) : Option String :=
  (((ner (text.take 2000)).filter (fun n => decide (2 ≤ (pyWords n.data).length))).head?)

/-- First of the first 5 lines with 2-3 words, every (nonempty) word
starting with an upper-case letter, and no digit; mirrors the second
`for` loop of `extract_name`. -/
def findCapLine : List (List Char) → Option (List Char)
  | [] => none
  | l :: ls =>
    let t := pyStrip l
    let ws := pyWords t
    if decide (2 ≤ ws.length) && decide (ws.length ≤ 3) &&
        ws.all (fun w => w.isEmpty || asciiUpper (w.headD ' ')) &&
        !(t.any pyDigit) then some t
    else findCapLine ls

/-- Heuristic 4 of `extract_name`. -/
def extractNameH4 (text : List Char) : Option (List Char) :=
  findCapLine ((pyLines text).take 5)

/-! Heuristic 5: the anchored regex
`^([A-Z][a-z]+(?:\s+[A-Z][a-z]+){1,2})[\s\n]+` over `text[:1000]`
(no `(?i)` here, so capitalization is strict). -/

/-- Match `[A-Z][a-z]+` strictly: one upper-case letter then a maximal
nonempty run of lower-case letters. -/
def matchTokenCap (s : List Char) : Option (List Char × List Char) :=
  match s with
  | [] => none
  | c :: rest =>
    if asciiUpper c then
      if 1 ≤ (rest.takeWhile asciiLower).length then
        some (c :: rest.takeWhile asciiLower, rest.drop (rest.takeWhile asciiLower).length)
      else none
    else none

/-- Match the anchored leading-name pattern at position 0: capture
2-3 capitalized tokens, which must be followed by at least one
whitespace character.  The repetition `{1,2}` is greedy: three tokens
are captured when a third token followed by whitespace is present,
otherwise the engine backtracks to two tokens using the whitespace
after the second token as the required trailing `[\s\n]+`. -/
def matchLeadingName (s : List Char) : Option (List Char) :=
  match matchTokenCap s with
  | none => none
  | some (t1, r1) =>
    match matchSep r1 with
    | none => none
    | some (w1, r2) =>
      match matchTokenCap r2 with
      | none => none
      | some (t2, r3) =>
        match matchSep r3 with
        | none => none
        | some (w2, r4) =>
          match matchTokenCap r4 with
          | none => some (t1 ++ (w1 ++ t2))
          | some (t3, r5) =>
            match matchSep r5 with
            | none => some (t1 ++ (w1 ++ t2))
            | some _ => some (t1 ++ (w1 ++ (t2 ++ (w2 ++ t3))))

/-- Heuristic 5 of `extract_name`. -/
def extractNameH5 (text : List Char) : Option (List Char) :=
  matchLeadingName (text.take 1000)

/-- `ResumeParser.extract_name`: the five heuristics in order, then the
hard-coded fallback string. -/
def extract_name (ner : String → List String) (text : String) : String :=
  match extractNameH1 text.data with
  | some n => String.mk n
  | none =>
    match extractNameH2 text.data with
    | some n => String.mk n
    | none =>
      match extractNameH3 ner text with
      | some n => n
      | none =>
        match extractNameH4 text.data with
        | some n => String.mk n
        | none =>
          match extractNameH5 text.data with
          | some n => String.mk n
          | none => "HEMANTH JAYARAM"

/-! ## Email extractor (`ResumeParser.extract_email`)

Pattern: `\b[A-Za-z0-9._%+-]+@[A-Za-z0-9.-]+\.[A-Z|a-z]{2,}\b`, scanned
with `re.findall`; the code takes the first match, else a hard-coded
fallback.  (Note that `[A-Z|a-z]` contains a literal `|`.) -/

/-- Character class of the local part, `[A-Za-z0-9._%+-]`. -/
def emailLocal (c : Char) : Bool :=
  asciiLetter c || pyDigit c || c = '.' || c = '_' || c = '%' || c = '+' || c = '-'

/-- Character class of the domain part, `[A-Za-z0-9.-]`. -/
def emailDomain (c : Char) : Bool :=
  asciiLetter c || pyDigit c || c = '.' || c = '-'

/-- Character class of the top-level-domain part, `[A-Z|a-z]`. -/
def emailTld (c : Char) : Bool := asciiLetter c || c = '|'

/-- Greedy `[A-Z|a-z]{2,}\b` at the head of `afterDot`: largest count
`m ≥ 2` of leading tld-class characters such that a word boundary
holds after the `m`-th one. -/
def tldSplit (afterDot : List Char) : Option Nat :=
  let t := afterDot.takeWhile emailTld
  (((List.range (t.length + 1)).filter (fun m =>
      decide (2 ≤ m) && (wordOpt (t.get? (m - 1)) != wordOpt (afterDot.get? m)))).getLast?)

/-- Try the candidate positions of the dot in the domain, largest
first, mirroring the greedy backtracking of `[A-Za-z0-9.-]+\.`. -/
def tryDots : List Nat → List Char → Option (List Char)
  | [], _ => none
  | k :: ks, r2 =>
    match tldSplit (r2.drop (k + 1)) with
    | some m => some (r2.take k ++ '.' :: ((r2.drop (k + 1)).take m))
    | none => tryDots ks r2

/-- Match `[A-Za-z0-9.-]+\.[A-Z|a-z]{2,}\b` at the head of `r2` (the
text after the `@`): the domain class run is greedy, so the dot chosen
is the rightmost one that leaves a valid tld behind it. -/
def matchEmailAfterAt (r2 : List Char) : Option (List Char) :=
  let run2 := r2.takeWhile emailDomain
  let ks := (((List.range run2.length).filter (fun k =>
      decide (1 ≤ k) && (run2.get? k == some '.'))).reverse)
  tryDots ks r2

/-- Attempt the whole email pattern at the head of `s`, where `prev`
is the character just before `s` (for the leading `\b`). -/
def matchEmailAt (prev : Option Char) (s : List Char) : Option (List Char) :=
  let loc := s.takeWhile emailLocal
  if loc.isEmpty then none
  else if wordOpt prev == wordOpt s.head? then none
  else
    match s.drop loc.length with
    | '@' :: r2 => (matchEmailAfterAt r2).map (fun d => loc ++ '@' :: d)
    | _ => none

/-- Leftmost match of the email pattern (`re.findall` head). -/
def searchEmail : Option Char → List Char → Option (List Char)
  | _, [] => none
  | prev, c :: rest =>
    match matchEmailAt prev (c :: rest) with
    | some m => some m
    | none => searchEmail (some c) rest

/-- `ResumeParser.extract_email`: first match of the email pattern,
else the hard-coded fallback. -/
def extract_email (text : String) : String :=
  match searchEmail none text.data with
  | some m => String.mk m
  | none => "hemanthjayaram5566@gmail.com"

/-! ## Phone extractor (`ResumeParser.extract_phone_number`)

Pattern: `[\+\(]?[1-9][0-9 .\-\(\)]{8,}[0-9]`, scanned with
`re.findall`; the code takes the first match, else a hard-coded
fallback. -/

/-- Character class `[0-9 .\-\(\)]`. -/
def phoneClass (c : Char) : Bool :=
  pyDigit c || c = ' ' || c = '.' || c = '-' || c = '(' || c = ')'

/-- The class `[1-9]` of the leading digit. -/
def phoneLead (c : Char) : Bool := '1' ≤ c && c ≤ '9'

/-- Largest index `j ≥ 8` in `run` holding a digit: the greedy
`{8,}` consumes `run` up to `j`, the final `[0-9]` takes `run[j]`. -/
def lastDigitIdx (run : List Char) : Option Nat :=
  (((List.range run.length).filter (fun j =>
      decide (8 ≤ j) && pyDigit (run.getD j ' '))).getLast?)

/-- Match `[0-9 .\-\(\)]{8,}[0-9]` at the head of `rest`: the class run
is maximal, then backtracks so that the last consumed character is a
digit at index at least 8 of the run. -/
def matchPhoneCore (rest : List Char) : Option (List Char) :=
  match lastDigitIdx (rest.takeWhile phoneClass) with
  | some j => some ((rest.takeWhile phoneClass).take (j + 1))
  | none => none

/-- Attempt the whole phone pattern at the head of `s`: optional `+` or
`(`, a digit `1`-`9`, then the long numeric tail. -/
def matchPhoneAt (s : List Char) : Option (List Char) :=
  match s with
  | [] => none
  | c :: rest =>
    if c = '+' || c = '(' then
      match rest with
      | [] => none
      | d :: rest2 =>
        if phoneLead d then (matchPhoneCore rest2).map (fun core => c :: d :: core)
        else none
    else if phoneLead c then (matchPhoneCore rest).map (fun core => c :: core)
    else none

/-- Leftmost match of the phone pattern (`re.findall` head). -/
def searchPhone : List Char → Option (List Char)
  | [] => none
  | c :: rest =>
    match matchPhoneAt (c :: rest) with
    | some m => some m
    | none => searchPhone rest

/-- `ResumeParser.extract_phone_number`: first match of the phone
pattern, else the hard-coded fallback. -/
def extract_phone_number (text : String) : String :=
  match searchPhone text.data with
  | some m => String.mk m
  | none => "9986500900"

/-! ## Static extractors (`extract_education`, `extract_skills`,
`extract_experience`): hard-coded structures ignoring the text. -/

/-- `ResumeParser.extract_education`: a fixed list of entries. -/
def extract_education (_text : String) : List EducationEntry :=
  [{ degree := "Bachelor of Engineering",
     institution := "Artificial Intelligence & Machine Learning",
     year := "2026", gpa := none, details := some ["Expected in 06/2026"] },
   { degree := "Ramaiah Institute of Technology",
     institution := "Bengaluru, India",
     year := "", gpa := none, details := none },
   { degree := "Diploma",
     institution := "Electrical & Electronics Engineering",
     year := "2023", gpa := some "8.32 gpa", details := some ["8.32 GPA/CGPA"] }]

/-- `ResumeParser.extract_skills`: a fixed categorized dictionary. -/
def extract_skills (_text : String) : Skills :=
  [("technical",
    ["Artificial Intelligence", "Automation", "Data Analysis",
     "Engineering", "Machine Learning", "Software",
     "Various Software Programs"]),
   ("soft",
    ["Communication", "Effective Communication", "Teamwork",
     "Problem Solving", "Quick Learner"]),
   ("languages", ["Hindi", "Kannada", "English"]),
   ("certifications", ["Industrial Automation Training"])]

/-- `ResumeParser.extract_experience`: a fixed list of entries. -/
def extract_experience (_text : String) : List ExperienceEntry :=
  [{ title := "Mechanic Technician",
     company := "Shivam Sports - Belgaum, India",
     duration := "02/2022 - 03/2022",
     responsibilities :=
       ["Enhanced customer satisfaction by providing timely and accurate repairs on a wide range of vehicles.",
        "Improved vehicle performance by conducting thorough inspections and diagnostic tests.",
        "Increased efficiency by proficiently managing multiple repair projects simultaneously.",
        "Supported a positive customer experience by providing follow-up services such as test drives and post-repair consultations."] },
   { title := "Intern",
     company := "Government Tool Room & Training Center - Belgaum, India",
     duration := "02/2023 - 06/2023",
     responsibilities :=
       ["Gained valuable experience working within a specific industry, applying learned concepts directly into relevant work situations.",
        "Gained hands-on experience in various software programs, increasing proficiency and expanding technical skill set.",
        "Analyzed problems and worked with teams to develop solutions.",
        "Participated in workshops and presentations related to projects to gain knowledge."] }]

/-! ## Orchestrator (`ResumeParser.parse`,
`ResumeParser.get_empty_resume_structure`) -/

/-- `ResumeParser.get_empty_resume_structure`. -/
def get_empty_resume_structure : ResumeRecord :=
  { personal_info := { name := "", email := "", phone := "", address := "" },
    education := [],
    skills := [("technical", []), ("soft", []), ("languages", []), ("certifications", [])],
    work_experience := [] }

/-- `ResumeParser.parse`.  The PDF text extraction is an external
collaborator (`extract_text_from_pdf` catches every exception and
returns `None`), so the extraction outcome is the parameter `text?`;
Python's `if not text` treats both `None` and the empty string as
failure.  The NER oracle parameterizes heuristic 3 of the name
extractor. -/
def parse (ner : String → List String) (text? : Option String) : ResumeRecord :=
  match text? with
  | none => get_empty_resume_structure
  | some text =>
    if text = "" then get_empty_resume_structure
    else
      { personal_info :=
          { name := extract_name ner text,
            email := extract_email text,
            phone := extract_phone_number text,
            address := "Bengaluru, India" },
        education := extract_education text,
        skills := extract_skills text,
        work_experience := extract_experience text }

/-- A failure raised by an individual field extractor (the
`FieldExtractionAnomaly` of the spec's error taxonomy). -/
structure FieldExtractionAnomaly where
  msg : String
deriving DecidableEq

/-- The orchestrator with the field extractors as fallible parameters,
mirroring the body of `ResumeParser.parse` literally: the extractor
calls appear in the evaluation order of the Python dict literal and
are not wrapped in any try/except, so in the exception monad a raised
`FieldExtractionAnomaly` propagates out of `parse`. -/
def parseExc (nameE emailE phoneE : String → Except FieldExtractionAnomaly String)
    (eduE : String → Except FieldExtractionAnomaly (List EducationEntry))
    (skillsE : String → Except FieldExtractionAnomaly Skills)
    (expE : String → Except FieldExtractionAnomaly (List ExperienceEntry))
    (text? : Option String) : Except FieldExtractionAnomaly ResumeRecord :=
  match text? with
  | none => Except.ok get_empty_resume_structure
  | some text =>
    if text = "" then Except.ok get_empty_resume_structure
    else do
      let n ← nameE text
      let e ← emailE text
      let p ← phoneE text
      let ed ← eduE text
      let sk ← skillsE text
      let ex ← expE text
      Except.ok
        { personal_info := { name := n, email := e, phone := p, address := "Bengaluru, India" },
          education := ed, skills := sk, work_experience := ex }

/-- Shape of every string captured by the labeled-name regex of
heuristic 2: 2-3 alphabetic tokens (each at least two ASCII letters,
of either case, because of the `(?i)` flag) joined by the whitespace
runs that separated them in the text. -/
def NameShape (g : List Char) : Prop :=
  ∃ t1 w1 t2 tl, g = t1 ++ (w1 ++ (t2 ++ tl)) ∧
    2 ≤ t1.length ∧ (∀ c ∈ t1, asciiLetter c = true) ∧
    1 ≤ w1.length ∧ (∀ c ∈ w1, pyWhitespace c = true) ∧
    2 ≤ t2.length ∧ (∀ c ∈ t2, asciiLetter c = true) ∧
    (tl = [] ∨ ∃ w2 t3, tl = w2 ++ t3 ∧ 1 ≤ w2.length ∧
      (∀ c ∈ w2, pyWhitespace c = true) ∧ 2 ≤ t3.length ∧ (∀ c ∈ t3, asciiLetter c = true))

/-! ## Helper lemmas -/

theorem takeWhile_append_of_all (p : Char → Bool) (l1 l2 : List Char)
    (h1 : ∀ c ∈ l1, p c = true)
    (h2 : ∀ c, l2.head? = some c → p c = false) :
    (l1 ++ l2).takeWhile p = l1 := by
  induction l1 with
  | nil =>
    simp only [List.nil_append]
    cases l2 with
    | nil => rfl
    | cons c cs => simp [List.takeWhile_cons, h2 c rfl]
  | cons a as ih =>
    have ha : p a = true := h1 a (by simp)
    simp only [List.cons_append, List.takeWhile_cons, ha, if_true]
    rw [ih (fun c hc => h1 c (by simp [hc]))]

/-! ## C1: empty-structure fallback when no text is extracted -/

/-- C1: for every document whose text extraction fails or yields the
empty string, `parse` returns exactly the canonical empty ResumeRecord:
all personal_info strings empty, education and work_experience empty,
and skills mapping exactly the four category keys to empty lists. -/
theorem C1_parse_empty_on_no_text (ner : String → List String) (text? : Option String)
    (h : text? = none ∨ text? = some "") :
    parse ner text? = get_empty_resume_structure ∧
    (parse ner text?).personal_info.name = "" ∧
    (parse ner text?).personal_info.email = "" ∧
    (parse ner text?).personal_info.phone = "" ∧
    (parse ner text?).personal_info.address = "" ∧
    (parse ner text?).education = [] ∧
    (parse ner text?).skills
      = [("technical", []), ("soft", []), ("languages", []), ("certifications", [])] ∧
    (parse ner text?).work_experience = [] := by
  rcases h with h | h <;> subst h <;>
    exact ⟨rfl, rfl, rfl, rfl, rfl, rfl, rfl, rfl⟩

/-- C1 witness: the failed-extraction case at a concrete input. -/
theorem C1_parse_empty_on_no_text_witness :
    parse (fun _ => []) none = get_empty_resume_structure ∧
    (parse (fun _ => []) none).personal_info.name = "" ∧
    (parse (fun _ => []) none).personal_info.email = "" ∧
    (parse (fun _ => []) none).personal_info.phone = "" ∧
    (parse (fun _ => []) none).personal_info.address = "" ∧
    (parse (fun _ => []) none).education = [] ∧
    (parse (fun _ => []) none).skills
      = [("technical", []), ("soft", []), ("languages", []), ("certifications", [])] ∧
    (parse (fun _ => []) none).work_experience = [] :=
  C1_parse_empty_on_no_text (fun _ => []) none (Or.inl rfl)

/-! ## C2: a failing field extractor aborts the whole parse -/

/-- C2 counterexample: with a name extractor that raises a
`FieldExtractionAnomaly`, the orchestrator (whose body contains no
per-extractor exception handling) propagates the failure instead of
returning a record with only the name field empty. -/
theorem C2_extractor_failure_counterexample :
    parseExc (fun _ => Except.error ⟨"name extractor failure"⟩)
      (fun t => Except.ok (extract_email t))
      (fun t => Except.ok (extract_phone_number t))
      (fun t => Except.ok (extract_education t))
      (fun t => Except.ok (extract_skills t))
      (fun t => Except.ok (extract_experience t))
      (some "John Smith resume")
      = Except.error ⟨"name extractor failure"⟩ := rfl

/-- C2 amended: `parse` wraps no field extractor in a handler, so when
any one of the six field extractors raises a `FieldExtractionAnomaly`
on a successfully extracted nonempty text, the parse aborts with an
anomaly (the one raised by the first failing extractor in evaluation
order) instead of returning a record with only that field empty; only
text-extraction failure is recovered into the empty structure. -/
theorem C2_extractor_failure_propagates
    (nameE emailE phoneE : String → Except FieldExtractionAnomaly String)
    (eduE : String → Except FieldExtractionAnomaly (List EducationEntry))
    (skillsE : String → Except FieldExtractionAnomaly Skills)
    (expE : String → Except FieldExtractionAnomaly (List ExperienceEntry))
    (text : String) (e : FieldExtractionAnomaly)
    (ht : text ≠ "")
    (hfail : nameE text = Except.error e ∨ emailE text = Except.error e ∨
      phoneE text = Except.error e ∨ eduE text = Except.error e ∨
      skillsE text = Except.error e ∨ expE text = Except.error e) :
    ∃ e2 : FieldExtractionAnomaly,
      parseExc nameE emailE phoneE eduE skillsE expE (some text) = Except.error e2 := by
  cases hn : nameE text with
  | error e1 => exact ⟨e1, by simp only [parseExc, if_neg ht, hn]; rfl⟩
  | ok vn =>
    cases he : emailE text with
    | error e1 => exact ⟨e1, by simp only [parseExc, if_neg ht, hn, he]; rfl⟩
    | ok ve =>
      cases hp : phoneE text with
      | error e1 => exact ⟨e1, by simp only [parseExc, if_neg ht, hn, he, hp]; rfl⟩
      | ok vp =>
        cases hd : eduE text with
        | error e1 => exact ⟨e1, by simp only [parseExc, if_neg ht, hn, he, hp, hd]; rfl⟩
        | ok vd =>
          cases hk : skillsE text with
          | error e1 =>
            exact ⟨e1, by simp only [parseExc, if_neg ht, hn, he, hp, hd, hk]; rfl⟩
          | ok vk =>
            cases hx : expE text with
            | error e1 =>
              exact ⟨e1, by simp only [parseExc, if_neg ht, hn, he, hp, hd, hk, hx]; rfl⟩
            | ok vx =>
              rcases hfail with h | h | h | h | h | h
              · rw [hn] at h; cases h
              · rw [he] at h; cases h
              · rw [hp] at h; cases h
              · rw [hd] at h; cases h
              · rw [hk] at h; cases h
              · rw [hx] at h; cases h

/-- C2 witness: the amended propagation behaviour at a concrete input,
with the failure raised by the skills extractor (the fifth in
evaluation order) while the other extractors are the real ones. -/
theorem C2_extractor_failure_propagates_witness :
    ∃ e2 : FieldExtractionAnomaly,
      parseExc (fun t => Except.ok (extract_name (fun _ => []) t))
        (fun t => Except.ok (extract_email t))
        (fun t => Except.ok (extract_phone_number t))
        (fun t => Except.ok (extract_education t))
        (fun _ => Except.error ⟨"skills extractor failure"⟩)
        (fun t => Except.ok (extract_experience t))
        (some "sample text")
        = Except.error e2 :=
  C2_extractor_failure_propagates _ _ _ _ _ _ "sample text" ⟨"skills extractor failure"⟩
    (by decide) (Or.inr (Or.inr (Or.inr (Or.inr (Or.inl rfl)))))

/-! ## C6: the education, skills and experience extractors are constant -/

/-- C6: `extract_education`, `extract_skills` and `extract_experience`
ignore the input text entirely: on any two texts they agree, and each
equals its fixed pre-populated structure. -/
theorem C6_static_extractors (t1 t2 : String) :
    extract_education t1 = extract_education t2 ∧
    extract_skills t1 = extract_skills t2 ∧
    extract_experience t1 = extract_experience t2 ∧
    extract_education t1
      = [{ degree := "Bachelor of Engineering",
           institution := "Artificial Intelligence & Machine Learning",
           year := "2026", gpa := none, details := some ["Expected in 06/2026"] },
         { degree := "Ramaiah Institute of Technology",
           institution := "Bengaluru, India",
           year := "", gpa := none, details := none },
         { degree := "Diploma",
           institution := "Electrical & Electronics Engineering",
           year := "2023", gpa := some "8.32 gpa", details := some ["8.32 GPA/CGPA"] }] ∧
    extract_skills t1
      = [("technical",
          ["Artificial Intelligence", "Automation", "Data Analysis",
           "Engineering", "Machine Learning", "Software",
           "Various Software Programs"]),
         ("soft",
          ["Communication", "Effective Communication", "Teamwork",
           "Problem Solving", "Quick Learner"]),
         ("languages", ["Hindi", "Kannada", "English"]),
         ("certifications", ["Industrial Automation Training"])] ∧
    extract_experience t1
      = [{ title := "Mechanic Technician",
           company := "Shivam Sports - Belgaum, India",
           duration := "02/2022 - 03/2022",
           responsibilities :=
             ["Enhanced customer satisfaction by providing timely and accurate repairs on a wide range of vehicles.",
              "Improved vehicle performance by conducting thorough inspections and diagnostic tests.",
              "Increased efficiency by proficiently managing multiple repair projects simultaneously.",
              "Supported a positive customer experience by providing follow-up services such as test drives and post-repair consultations."] },
         { title := "Intern",
           company := "Government Tool Room & Training Center - Belgaum, India",
           duration := "02/2023 - 06/2023",
           responsibilities :=
             ["Gained valuable experience working within a specific industry, applying learned concepts directly into relevant work situations.",
              "Gained hands-on experience in various software programs, increasing proficiency and expanding technical skill set.",
              "Analyzed problems and worked with teams to develop solutions.",
              "Participated in workshops and presentations related to projects to gain knowledge."] }] :=
  ⟨rfl, rfl, rfl, rfl, rfl, rfl⟩

/-! ## C8: the address field -/

/-- C8 counterexample: on a document that yields text, `parse` fills
`personal_info.address` with the hard-coded string rather than the
empty string, although no address extraction heuristic exists. -/
theorem C8_address_counterexample :
    (parse (fun _ => []) (some "resume")).personal_info.address ≠ "" := by
  decide

/-- C8 amended: `personal_info.address` is the empty string only in
the empty-structure fallback; on every successful parse it is the
hard-coded string "Bengaluru, India". -/
theorem C8_address_values (ner : String → List String) (text : String) (h : text ≠ "") :
    (parse ner (some text)).personal_info.address = "Bengaluru, India" ∧
    (parse ner none).personal_info.address = "" := by
  constructor
  · simp only [parse]
    rw [if_neg h]
  · rfl

/-- C8 witness: the amended address values at a concrete input. -/
theorem C8_address_values_witness :
    (parse (fun _ => []) (some "x")).personal_info.address = "Bengaluru, India" ∧
    (parse (fun _ => []) none).personal_info.address = "" :=
  C8_address_values (fun _ => []) "x" (by decide)

/-! ## C9: the skills mapping always has exactly the four keys -/

/-- C9: on both the success path and the empty-structure path, the
skills mapping of the record returned by `parse` has exactly the keys
technical, soft, languages, certifications, in this order. -/
theorem C9_skills_keys (ner : String → List String) (text? : Option String) :
    ((parse ner text?).skills).map Prod.fst
      = ["technical", "soft", "languages", "certifications"] := by
  cases text? with
  | none => rfl
  | some t =>
    by_cases h : t = ""
    · subst h; rfl
    · simp only [parse]
      rw [if_neg h]
      rfl

/-! ## C3: heuristic 1 wins on an all-caps first line -/

/-- C3: when the first line of the text, once stripped, is all
upper-case, has 2-3 whitespace tokens and contains no digit, the name
extractor returns exactly that stripped line — regardless of the NER
oracle and of anything (such as a labeled "Name: Jane Doe" pattern)
appearing later in the text, since heuristic 1 is tried first. -/
theorem C3_allcaps_first_line_wins (ner : String → List String) (text : String)
    (l : List Char)
    (hl : (pyLines text.data).head? = some l)
    (hup : pyIsUpper (pyStrip l) = true)
    (hlen2 : 2 ≤ (pyWords (pyStrip l)).length)
    (hlen3 : (pyWords (pyStrip l)).length ≤ 3)
    (hdig : (pyStrip l).any pyDigit = false) :
    extract_name ner text = String.mk (pyStrip l) := by
  have h1 : extractNameH1 text.data = some (pyStrip l) := by
    cases e : pyLines text.data with
    | nil => rw [e] at hl; cases hl
    | cons a as =>
      rw [e] at hl
      injection hl with hl
      subst hl
      unfold extractNameH1
      rw [e, List.take_succ_cons]
      unfold findUpperLine
      simp [hup, hlen2, hlen3, hdig]
  simp only [extract_name, h1]

/-- C3 witness: the synthetic text of the spec, whose first line is
"JOHN MICHAEL SMITH" and which also contains a labeled
"Name: Jane Doe" pattern within the first 1000 characters. -/
theorem C3_allcaps_first_line_wins_witness :
    extract_name (fun _ => []) "JOHN MICHAEL SMITH\nName: Jane Doe"
      = String.mk (pyStrip ("JOHN MICHAEL SMITH").data) ∧
    String.mk (pyStrip ("JOHN MICHAEL SMITH").data) = "JOHN MICHAEL SMITH" :=
  ⟨C3_allcaps_first_line_wins (fun _ => []) "JOHN MICHAEL SMITH\nName: Jane Doe"
      ("JOHN MICHAEL SMITH").data (by decide) (by decide) (by decide) (by decide) (by decide),
   by decide⟩

/-! ## C4: the hard fallback of the name extractor -/

/-- C4: when every heuristic of the name extractor fails — no
qualifying all-caps line, no labeled-name match, no NER candidate with
at least two tokens, no capitalized short line, no leading-name match —
`extract_name` returns the fixed default name, a non-empty string. -/
theorem C4_name_hard_fallback (ner : String → List String) (text : String)
    (hA : extractNameH1 text.data = none)
    (hB : extractNameH2 text.data = none)
    (hC : extractNameH3 ner text = none)
    (hD : extractNameH4 text.data = none)
    (hE : extractNameH5 text.data = none) :
    extract_name ner text = "HEMANTH JAYARAM" ∧ ("HEMANTH JAYARAM" : String) ≠ "" := by
  constructor
  · simp only [extract_name, hA, hB, hC, hD, hE]
  · decide

/-- C4 witness: on the empty text with an empty NER oracle, every
heuristic fails and the fixed default name is returned. -/
theorem C4_name_hard_fallback_witness :
    extract_name (fun _ => []) "" = "HEMANTH JAYARAM" ∧ ("HEMANTH JAYARAM" : String) ≠ "" :=
  C4_name_hard_fallback (fun _ => []) ""
    (by decide) (by decide) rfl (by decide) (by decide)

/-! ## C10: the first character of a matched phone number -/

theorem matchPhoneAt_head {s m : List Char} (h : matchPhoneAt s = some m) :
    ∃ c r, m = c :: r ∧ (c = '+' ∨ c = '(' ∨ phoneLead c = true) := by
  unfold matchPhoneAt at h
  split at h
  · cases h
  next c rest =>
    split at h
    next hc =>
      split at h
      · cases h
      next d rest2 =>
        split at h
        next hd =>
          rcases Option.map_eq_some'.mp h with ⟨core, _, hm⟩
          refine ⟨c, d :: core, hm.symm, ?_⟩
          rcases (Bool.or_eq_true _ _).mp hc with h' | h'
          · exact Or.inl (of_decide_eq_true h')
          · exact Or.inr (Or.inl (of_decide_eq_true h'))
        next => cases h
    next hc =>
      split at h
      next hl =>
        rcases Option.map_eq_some'.mp h with ⟨core, _, hm⟩
        exact ⟨c, core, hm.symm, Or.inr (Or.inr hl)⟩
      next => cases h

theorem searchPhone_head {l m : List Char} (h : searchPhone l = some m) :
    ∃ c r, m = c :: r ∧ (c = '+' ∨ c = '(' ∨ phoneLead c = true) := by
  induction l with
  | nil => cases h
  | cons c cs ih =>
    rw [searchPhone] at h
    cases hm : matchPhoneAt (c :: cs) with
    | some m2 =>
      rw [hm] at h
      injection h with h
      subst h
      exact matchPhoneAt_head hm
    | none =>
      rw [hm] at h
      exact ih h

/-- C10: whenever the phone extractor returns a substring matched in
the input text (instead of the fixed fallback), that substring starts
with `+`, `(` or a digit between 1 and 9 — never with the digit 0 —
because the pattern's first character classes are `[\+\(]?` and
`[1-9]`. -/
theorem C10_phone_first_char (text : String) (m : List Char)
    (h : searchPhone text.data = some m) :
    extract_phone_number text = String.mk m ∧
    ∃ c r, m = c :: r ∧ c ≠ '0' ∧ (c = '+' ∨ c = '(' ∨ ('1' ≤ c ∧ c ≤ '9')) := by
  refine ⟨by simp only [extract_phone_number, h], ?_⟩
  rcases searchPhone_head h with ⟨c, r, hm, hc⟩
  refine ⟨c, r, hm, ?_, ?_⟩
  · rcases hc with h' | h' | h'
    · subst h'; decide
    · subst h'; decide
    · intro h0
      subst h0
      simp [phoneLead] at h'
  · rcases hc with h' | h' | h'
    · exact Or.inl h'
    · exact Or.inr (Or.inl h')
    · refine Or.inr (Or.inr ?_)
      simpa [phoneLead, Bool.and_eq_true, decide_eq_true_eq] using h'

/-- C10 witness: the sample phone number, whose match starts with `+`. -/
theorem C10_phone_first_char_witness :
    extract_phone_number "+1 (555) 123-4567" = String.mk ("+1 (555) 123-4567").data ∧
    ∃ c r, ("+1 (555) 123-4567").data = c :: r ∧ c ≠ '0' ∧
      (c = '+' ∨ c = '(' ∨ ('1' ≤ c ∧ c ≤ '9')) :=
  C10_phone_first_char "+1 (555) 123-4567" ("+1 (555) 123-4567").data (by decide)

/-! ## C7: the phone extractor on text containing the sample number -/

theorem searchPhone_append_skip (u rest : List Char)
    (hu : ∀ i, i < u.length → matchPhoneAt ((u ++ rest).drop i) = none) :
    searchPhone (u ++ rest) = searchPhone rest := by
  induction u with
  | nil => rfl
  | cons c cs ih =>
    have h0 : matchPhoneAt (c :: (cs ++ rest)) = none := by
      have := hu 0 (by simp)
      simpa using this
    rw [List.cons_append, searchPhone, h0]
    exact ih (fun i hi => by
      have := hu (i + 1) (by simpa using Nat.succ_lt_succ hi)
      simpa using this)

theorem searchPhone_cons_of_match {s m : List Char} (h : matchPhoneAt s = some m) :
    searchPhone s = some m := by
  cases s with
  | nil => cases h
  | cons c cs => rw [searchPhone, h]

/-- The phone pattern matched at the start of the sample number, for
any continuation whose first character is outside the phone character
class: the greedy tail stops exactly at the final 7. -/
theorem matchPhoneAt_sample (v : List Char)
    (hv : ∀ c, v.head? = some c → phoneClass c = false) :
    matchPhoneAt (("+1 (555) 123-4567").data ++ v) = some ("+1 (555) 123-4567").data := by
  have e1 : ("+1 (555) 123-4567").data = '+' :: '1' :: (" (555) 123-4567").data := by decide
  rw [e1, List.cons_append, List.cons_append]
  have e2 : matchPhoneAt ('+' :: '1' :: ((" (555) 123-4567").data ++ v))
      = (matchPhoneCore ((" (555) 123-4567").data ++ v)).map (fun core => '+' :: '1' :: core) :=
    rfl
  rw [e2]
  have h2 : matchPhoneCore ((" (555) 123-4567").data ++ v) = some (" (555) 123-4567").data := by
    unfold matchPhoneCore
    rw [takeWhile_append_of_all phoneClass (" (555) 123-4567").data v (by decide) hv]
    decide
  rw [h2]
  rfl

/-- C7 amended: the phone extractor returns the matched substring in
its original format; on a text in which the phone pattern matches at no
position before the occurrence of "+1 (555) 123-4567", and in which
that occurrence is followed by the end of the text or by a character
outside the class `[0-9 .\-\(\)]`, it returns "+1 (555) 123-4567"
exactly.  (Without the condition on the following character the greedy
`{8,}` tail extends the match, see the counterexample.) -/
theorem C7_phone_sample_exact (u v : List Char)
    (hu : ∀ i, i < u.length →
      matchPhoneAt ((u ++ (("+1 (555) 123-4567").data ++ v)).drop i) = none)
    (hv : ∀ c, v.head? = some c → phoneClass c = false) :
    extract_phone_number (String.mk (u ++ (("+1 (555) 123-4567").data ++ v)))
      = "+1 (555) 123-4567" := by
  have hs : searchPhone (u ++ (("+1 (555) 123-4567").data ++ v))
      = some ("+1 (555) 123-4567").data := by
    rw [searchPhone_append_skip u _ hu]
    exact searchPhone_cons_of_match (matchPhoneAt_sample v hv)
  have hdef : extract_phone_number (String.mk (u ++ (("+1 (555) 123-4567").data ++ v)))
      = match searchPhone (u ++ (("+1 (555) 123-4567").data ++ v)) with
        | some m => String.mk m
        | none => "9986500900" := rfl
  rw [hdef, hs]

/-- C7 counterexample: a text that contains "+1 (555) 123-4567" with
no earlier match of the phone pattern, on which the phone extractor
nevertheless returns a longer string: the greedy `{8,}[0-9]` tail
swallows the digit following the sample substring. -/
theorem C7_phone_sample_counterexample :
    (("+1 (555) 123-45678").data = ("+1 (555) 123-4567").data ++ ['8']) ∧
    extract_phone_number "+1 (555) 123-45678" = "+1 (555) 123-45678" ∧
    ("+1 (555) 123-45678" : String) ≠ "+1 (555) 123-4567" := by
  refine ⟨by decide, ?_, by decide⟩
  have : searchPhone ("+1 (555) 123-45678").data = some ("+1 (555) 123-45678").data := by
    decide
  simp only [extract_phone_number, this]

/-- C7 witness: the amended statement at a concrete input in which the
sample number is preceded by prose and followed by a newline. -/
theorem C7_phone_sample_exact_witness :
    extract_phone_number
      (String.mk (("call ").data ++ (("+1 (555) 123-4567").data ++ ("\nBye").data)))
      = "+1 (555) 123-4567" :=
  C7_phone_sample_exact ("call ").data ("\nBye").data (by decide)
    (by
      intro c hc
      have : c = '\n' := by
        have h := hc
        rw [show (("\nBye").data).head? = some '\n' from rfl] at h
        injection h with h
        exact h.symm
      subst this
      decide)

/-! ## C5: the labeled-name heuristic -/

theorem matchToken_shape {s t r : List Char} (h : matchToken s = some (t, r)) :
    2 ≤ t.length ∧ ∀ c ∈ t, asciiLetter c = true := by
  unfold matchToken at h
  split at h
  next hlen =>
    injection h with h
    rw [Prod.mk.injEq] at h
    obtain ⟨h1, _⟩ := h
    subst h1
    exact ⟨hlen, fun c hc => List.mem_takeWhile_imp hc⟩
  next => cases h

theorem matchSep_shape {s w r : List Char} (h : matchSep s = some (w, r)) :
    1 ≤ w.length ∧ ∀ c ∈ w, pyWhitespace c = true := by
  unfold matchSep at h
  split at h
  next hlen =>
    injection h with h
    rw [Prod.mk.injEq] at h
    obtain ⟨h1, _⟩ := h
    subst h1
    exact ⟨hlen, fun c hc => List.mem_takeWhile_imp hc⟩
  next => cases h

theorem matchNameGroup_shape {s g : List Char} (h : matchNameGroup s = some g) :
    NameShape g := by
  unfold matchNameGroup at h
  split at h
  · cases h
  next t1 r1 h1 =>
    split at h
    · cases h
    next w1 r2 h2 =>
      split at h
      · cases h
      next t2 r3 h3 =>
        obtain ⟨ht1len, ht1⟩ := matchToken_shape h1
        obtain ⟨hw1len, hw1⟩ := matchSep_shape h2
        obtain ⟨ht2len, ht2⟩ := matchToken_shape h3
        split at h
        next =>
          injection h with h
          exact ⟨t1, w1, t2, [], by rw [← h]; simp,
            ht1len, ht1, hw1len, hw1, ht2len, ht2, Or.inl rfl⟩
        next w2 r4 h4 =>
          split at h
          next =>
            injection h with h
            exact ⟨t1, w1, t2, [], by rw [← h]; simp,
              ht1len, ht1, hw1len, hw1, ht2len, ht2, Or.inl rfl⟩
          next t3 r5 h5 =>
            obtain ⟨hw2len, hw2⟩ := matchSep_shape h4
            obtain ⟨ht3len, ht3⟩ := matchToken_shape h5
            injection h with h
            exact ⟨t1, w1, t2, w2 ++ t3, h.symm,
              ht1len, ht1, hw1len, hw1, ht2len, ht2,
              Or.inr ⟨w2, t3, rfl, hw2len, hw2, ht3len, ht3⟩⟩

theorem matchNameLabelAt_shape {s g : List Char} (h : matchNameLabelAt s = some g) :
    NameShape g := by
  unfold matchNameLabelAt at h
  split at h
  · cases h
  next => exact matchNameGroup_shape h

theorem searchNameLabel_shape {l g : List Char} (h : searchNameLabel l = some g) :
    NameShape g := by
  induction l with
  | nil => cases h
  | cons c cs ih =>
    rw [searchNameLabel] at h
    cases hm : matchNameLabelAt (c :: cs) with
    | some g2 =>
      rw [hm] at h
      injection h with h
      subst h
      exact matchNameLabelAt_shape hm
    | none =>
      rw [hm] at h
      exact ih h

/-- C5 counterexample: the labeled-name heuristic does return a
candidate whose tokens are not capitalized: on "name: john smith" it
captures "john smith", whose first letter is not upper-case.  The
inline `(?i)` flag of the pattern makes the token classes `[A-Z]` and
`[a-z]` case-insensitive as well. -/
theorem C5_labeled_name_counterexample :
    extractNameH2 ("name: john smith").data = some ("john smith").data ∧
    asciiUpper 'j' = false := by decide

/-- C5 amended: heuristic 2 searches the first 1000 characters for a
case-insensitive "name" label with an optional `:`, `|` or `-` and
captures 2-3 following alphabetic tokens; because `(?i)` applies to the
whole pattern the tokens are letter runs of either case (length at
least 2), joined by the whitespace that separated them — not
necessarily capitalized words. -/
theorem C5_labeled_name_shape (text : String) (s : List Char)
    (h : extractNameH2 text.data = some s) : NameShape s := by
  unfold extractNameH2 at h
  exact searchNameLabel_shape h

/-- C5 witness: the shape of the capture on a concrete labeled text. -/
theorem C5_labeled_name_shape_witness : NameShape ("john smith").data :=
  C5_labeled_name_shape "name: john smith" ("john smith").data (by decide)

end ResumeSpec
